import Mathlib

/-!
Verification development for the TikTok comment manager repository
(`ai_handler.py`, `app.py`, `scraper.py`, `backend/database.py`).

Python strings are modelled as lists of Unicode codepoints (`List Nat`),
which is exactly the sequence a Python `str` denotes.  `str.lower()` is
modelled on the ASCII range (the only cased characters appearing in the
configured constants); `str.strip()` is modelled over the ASCII whitespace
codepoints it strips.  Library calls with no repository source
(`json.loads`, the OpenAI completion call, the Selenium page queries) are
modelled as explicit oracle parameters/fields; everything that the
repository's own code computes is translated directly from that code.
-/

/-- Codepoints of a Lean string literal, used to transcribe the Python
string constants appearing in the source. -/
def strN (s : String) : List Nat := s.data.map Char.toNat

/-- Whitespace predicate backing the model of Python `str.strip()`
(ASCII whitespace: space, tab, LF, CR, VT, FF). -/
def isSpaceN (n : Nat) : Bool :=
  decide (n = 32 ∨ n = 9 ∨ n = 10 ∨ n = 13 ∨ n = 11 ∨ n = 12)

/-- ASCII model of Python `str.lower()` on a single codepoint. -/
def lowerN (n : Nat) : Nat := if 65 ≤ n ∧ n ≤ 90 then n + 32 else n

/-- Model of Python `str.lower()`. -/
def lowerStr (s : List Nat) : List Nat := s.map lowerN

/-- Model of Python `str.strip()`: drop leading and trailing whitespace. -/
def trimN (s : List Nat) : List Nat :=
  ((s.dropWhile isSpaceN).reverse.dropWhile isSpaceN).reverse

/-- Whether `pat` occurs at the very start of `s` (helper for substring
scanning, mirroring how Python locates separator occurrences). -/
def leadsWith : List Nat → List Nat → Bool
  | [], _ => true
  | _ :: _, [] => false
  | p :: ps, c :: cs => p == c && leadsWith ps cs

/-- Suffix of `s` after the first occurrence of `pat`, if any
(the start of Python's `s.split(pat)[1]`). -/
def afterFirstSepAux (pat : List Nat) : List Nat → Option (List Nat)
  | [] => none
  | c :: rest =>
    if leadsWith pat (c :: rest) then some (List.drop pat.length (c :: rest))
    else afterFirstSepAux pat rest

/-- Suffix of `s` after the last occurrence of `pat`, if any.
For a non-self-overlapping separator such as `"/@"` this coincides with
Python's `s.split(pat)[-1]` when an occurrence exists. -/
def afterLastSepAux (pat : List Nat) : List Nat → Option (List Nat)
  | [] => none
  | c :: rest =>
    match afterLastSepAux pat rest with
    | some r => some r
    | none =>
      if leadsWith pat (c :: rest) then some (List.drop pat.length (c :: rest))
      else none

/-- Python `s.split(pat)[-1]`: suffix after the last occurrence of the
separator, or the whole string when the separator does not occur. -/
def splitLastPiece (pat s : List Nat) : List Nat := (afterLastSepAux pat s).getD s

/-- Prefix of `s` before the first occurrence of `pat`, or the whole
string when `pat` does not occur (Python `s.split(pat)[0]`). -/
def beforeFirstSep (pat : List Nat) : List Nat → List Nat
  | [] => []
  | c :: rest =>
    if leadsWith pat (c :: rest) then []
    else c :: beforeFirstSep pat rest

/-- Python's `pat in s` membership test for a non-empty pattern. -/
def containsSeq (pat s : List Nat) : Bool := (afterFirstSepAux pat s).isSome

/-- Python `s.split(pat)[1]` when `pat` occurs in `s`: the piece between
the first occurrence and the next occurrence (or the end of the string). -/
def splitSecondPiece (pat s : List Nat) : List Nat :=
  beforeFirstSep pat ((afterFirstSepAux pat s).getD s)

/-! ## `ai_handler.py` — `AIResponseGenerator` -/

/-- Decoded Python/JSON values, with just enough structure for the
attribute accesses that `_parse_json_response` performs on the result of
`json.loads` (dicts with string keys, lists, strings, anything else). -/
inductive PyVal
  | str (s : List Nat)
  | dict (entries : List (List Nat × PyVal))
  | list (items : List PyVal)
  | other

/-- Kinds of Python exceptions distinguished by the source: a
`json.JSONDecodeError` (re-raised by `_parse_json_response`), an
attribute/type error from accessing `.get` on a non-dict, or a failure of
the OpenAI completion call itself.  All are subclasses of `Exception`. -/
inductive PyErr
  | jsonDecode
  | attr
  | apiFailure
deriving DecidableEq

/-- Behaviour of the external `client.chat.completions.create` call:
either it raises, or it returns a message whose content is `content`. -/
inductive ApiBehavior
  | raises
  | returns (content : List Nat)

/-- External-library oracle for `AIResponseGenerator`: the OpenAI call and
the behaviour of `json.loads` (which returns a decoded value or raises
`JSONDecodeError`). -/
structure Env where
  api : ApiBehavior
  jsonLoads : List Nat → Except Unit PyVal

/-- One element of `comments_data`: a dict with keys `username` and
`comment_text` (`ai_handler.py` line 41). -/
structure CommentInput where
  username : List Nat
  comment_text : List Nat
deriving DecidableEq

/-- First value bound to a key in a Python dict literal decoded from JSON. -/
def lookupN (entries : List (List Nat × PyVal)) (key : List Nat) : Option PyVal :=
  match entries with
  | [] => none
  | (k, v) :: rest => if k = key then some v else lookupN rest key

/-- `"responses"` key (`ai_handler.py` line 174). -/
def keyResponses : List Nat := strN "responses"

/-- `"chatgpt_response"` key with its default (`ai_handler.py` line 178). -/
def keyChatgptResponse : List Nat := strN "chatgpt_response"

/-- Default reply used by `item.get("chatgpt_response", "Hello! Merci ")`. -/
def defaultReply : List Nat := strN "Hello! Merci "

/-- Fixed placeholder reply returned for every comment when the batch
call fails (`ai_handler.py` lines 94-97). -/
def merciStr : List Nat := strN "Merci pour ton commentaire"

/-- `item.get("chatgpt_response", "Hello! Merci ")` on one element of the
`responses` array: on a dict it looks the key up with the default; on any
non-dict item the attribute access raises (`AttributeError`). -/
def itemReply (item : PyVal) : Except PyErr PyVal :=
  match item with
  | .dict es => .ok ((lookupN es keyChatgptResponse).getD (.str defaultReply))
  | _ => .error .attr

/-- The list comprehension `[item.get(...) for item in responses]`
(`ai_handler.py` lines 177-180), stopping at the first raising item. -/
def collectReplies : List PyVal → Except PyErr (List PyVal)
  | [] => .ok []
  | item :: rest =>
    match itemReply item with
    | .error e => .error e
    | .ok r =>
      match collectReplies rest with
      | .error e => .error e
      | .ok rs => .ok (r :: rs)

/-- Iterating `parsed_data.get("responses", [])` (`ai_handler.py` lines
174-180).  A list is iterated item by item; iterating a non-empty string
or dict yields elements without a `.get` attribute (raises at the first
one); an empty string or dict yields an empty comprehension; any other
value is not iterable. -/
def extractReplies (v : PyVal) : Except PyErr (List PyVal) :=
  match v with
  | .list items => collectReplies items
  | .str [] => .ok []
  | .str (_ :: _) => .error .attr
  | .dict [] => .ok []
  | .dict (_ :: _) => .error .attr
  | .other => .error .attr

/-- `parsed_data.get("responses", [])`: dict lookup with default `[]`;
on a non-dict decoded value the `.get` attribute access raises. -/
def parsedGetResponses (parsed : PyVal) : Except PyErr PyVal :=
  match parsed with
  | .dict es => .ok ((lookupN es keyResponses).getD (.list []))
  | _ => .error .attr

/-- Codepoints of the fenced-wrapper markers recognised by
`_parse_json_response` (`ai_handler.py` lines 163-166). -/
def fenceJson : List Nat := strN "```json"

/-- Codepoints of the plain fence marker. -/
def fence3 : List Nat := strN "```"

/-- Fence cleaning in `_parse_json_response` (`ai_handler.py` lines
160-168): strip, remove an optional fenced wrapper (with or without the
`json` language tag) by taking `split(marker)[1].split(marker3)[0]`,
then strip again. -/
def cleanFences (responseText : List Nat) : List Nat :=
  let cleaned := trimN responseText
  let c1 :=
    if containsSeq fenceJson cleaned then
      beforeFirstSep fence3 ((afterFirstSepAux fenceJson cleaned).getD cleaned)
    else if containsSeq fence3 cleaned then
      beforeFirstSep fence3 ((afterFirstSepAux fence3 cleaned).getD cleaned)
    else cleaned
  trimN c1

/-- `_parse_json_response` (`ai_handler.py` lines 149-185): clean the
text, decode it via `json.loads`, and extract the reply of every item of
the `responses` array.  A `json.JSONDecodeError` is re-raised by the
`except json.JSONDecodeError` clause; errors from the extraction step
propagate as-is. -/
def parse_json_response (jl : List Nat → Except Unit PyVal) (responseText : List Nat) :
    Except PyErr (List PyVal) :=
  match jl (cleanFences responseText) with
  | .error _ => .error .jsonDecode
  | .ok parsed =>
    match parsedGetResponses parsed with
    | .error e => .error e
    | .ok responses => extractReplies responses

/-- The body of the `try` block of `generate_batch_responses`
(`ai_handler.py` lines 52-89) viewed as a fallible computation: the
completion call either raises or returns content, whose stripped text is
handed to `_parse_json_response`.  (The prompt built beforehand does not
influence the result and is not modelled.) -/
def batchAttempt (env : Env) : Except PyErr (List PyVal) :=
  match env.api with
  | .raises => .error .apiFailure
  | .returns content => parse_json_response env.jsonLoads (trimN content)

/-- `generate_batch_responses` (`ai_handler.py` lines 31-97).  The result
pairs the returned reply list with whether the completion call was
attempted.  An empty `comments_data` returns `[]` before any call.  The
`except Exception` clause at line 91 catches every exception raised in
the `try` block — including the `json.JSONDecodeError` re-raised by
`_parse_json_response`, since `JSONDecodeError` subclasses `ValueError`
subclasses `Exception` — and returns one placeholder reply per input, so
the function always returns normally. -/
def generate_batch_responses (env : Env) (commentsData : List CommentInput) :
    List PyVal × Bool :=
  if commentsData = [] then ([], false)
  else
    match batchAttempt env with
    | .ok parsedResponses => (parsedResponses, true)
    | .error _ => (commentsData.map (fun _ => PyVal.str merciStr), true)

/-- `truncate_response` (`ai_handler.py` lines 265-279): return the text
unchanged when within `maxLength`, otherwise keep `maxLength - 3`
codepoints and append `"..."`. -/
def truncate_response (response : List Nat) (maxLength : Nat) : List Nat :=
  if response.length ≤ maxLength then response
  else response.take (maxLength - 3) ++ strN "..."

/-! ## `scraper.py` — `TikTokScraper` -/

/-- The username link element of a comment block (`.//div[@data-e2e=` the
comment-username locator `]//a`): its `href` attribute (absent when
`get_attribute` returns `None`) and its rendered text. -/
structure UsernameLink where
  href : Option (List Nat)
  text : List Nat

/-- Abstraction of one `DivCommentContentWrapper` block as the extraction
code observes it: the username link (absent when the element lookup
raises `NoSuchElementException`), the display-name paragraph text
(likewise), and the comment text (likewise). -/
structure CommentBlock where
  usernameLink : Option UsernameLink
  displayNameText : Option (List Nat)
  commentText : Option (List Nat)

/-- One extracted item (without the live element handle). -/
structure ExtractedComment where
  username : List Nat
  comment_text : List Nat

/-- The operator identity excluded by `_extract_comments`
(`scraper.py` line 197). -/
def excludedUsername : List Nat := strN "soeur bonplan 🎀"

/-- Separator `"/@"` used to derive a handle from a profile link. -/
def slashAt : List Nat := strN "/@"

/-- `"@" + href.split("/@")[-1].split("?")[0]` (`scraper.py` line 210):
the handle derived from a profile-link target (`'@'` is codepoint 64,
`'?'` codepoint 63). -/
def hrefUsername (href : List Nat) : List Nat :=
  64 :: (splitLastPiece slashAt href).takeWhile (fun c => c != 63)

/-- The username-link half of identity resolution (`scraper.py` lines
201-214): `""` when the link element is missing; the handle derived from
the `href` when that attribute is truthy and contains `"/@"`; otherwise
the stripped link text. -/
def resolveLinkUsername : Option UsernameLink → List Nat
  | none => []
  | some link =>
    match link.href with
    | some href =>
      if href ≠ [] ∧ containsSeq slashAt href = true then hrefUsername href
      else trimN link.text
    | none => trimN link.text

/-- Identity resolution of `_extract_comments` (`scraper.py` lines
201-226): start from the username link, then override with the stripped
display name when that element exists and its stripped text is
non-empty. -/
def resolveUsername (b : CommentBlock) : List Nat :=
  match b.displayNameText with
  | none => resolveLinkUsername b.usernameLink
  | some d => if trimN d ≠ [] then trimN d else resolveLinkUsername b.usernameLink

/-- Per-block step of `_extract_comments` (`scraper.py` lines 199-253):
resolve the identity, skip the block when the comment text cannot be
extracted, then drop it when
`username.lower().strip() == excluded_username.lower()`; otherwise keep
the (identity, text) pair. -/
def extractItem (b : CommentBlock) : Option ExtractedComment :=
  let username := resolveUsername b
  match b.commentText with
  | none => none
  | some t =>
    if trimN (lowerStr username) = lowerStr excludedUsername then none
    else some ⟨username, trimN t⟩

/-- `_extract_comments` over the list of comment blocks on the page. -/
def extract_comments (blocks : List CommentBlock) : List ExtractedComment :=
  blocks.filterMap extractItem

/-- Page state observed by `reply_to_comment` (`scraper.py` lines
261-357), with the navigation/matching/injection sub-steps abstracted to
whether they succeed: whether a comment block matching the stored
identity is found, whether a reply input is located, and the list of
enabled submit controls matched by the `comment-post`/`aria-disabled`
query at lines 340-343 (as opaque identifiers, in page order). -/
structure ReplyPage where
  targetFound : Bool
  replyInputFound : Bool
  publishButtons : List Nat

/-- The exception sites of `reply_to_comment`: target comment not found
(line 293), reply input not found (line 321), publish control not found
(line 353). -/
inductive ReplyErr
  | targetMissing
  | inputMissing
  | submitMissing
deriving DecidableEq

/-- `reply_to_comment` (`scraper.py` lines 261-357): fails when the
target comment or the reply input is missing; then, if at least two
enabled submit controls exist, clicks `publish_buttons[1]` (the second),
else raises.  Returns the clicked control on success. -/
def reply_to_comment (p : ReplyPage) : Except ReplyErr Nat :=
  if p.targetFound = false then .error .targetMissing
  else if p.replyInputFound = false then .error .inputMissing
  else if h : 2 ≤ p.publishButtons.length then
    .ok (p.publishButtons.get ⟨1, by omega⟩)
  else .error .submitMissing

/-! ## `backend/database.py` — `Database` and `app.py` routes -/

/-- One row of the `comments` table (`backend/database.py` lines 45-58).
Timestamps are abstract ticks. -/
structure CommentRow where
  id : Nat
  video_url : List Nat
  account_id : Nat
  username : List Nat
  comment_text : List Nat
  ai_response : List Nat
  status : List Nat
  created_at : Nat
  updated_at : Nat
deriving DecidableEq

/-- `get_comment` (`backend/database.py` lines 235-242): first row whose
`id` matches. -/
def get_comment (db : List CommentRow) (commentId : Nat) : Option CommentRow :=
  match db with
  | [] => none
  | c :: rest => if c.id == commentId then some c else get_comment rest commentId

/-- `get_comments_by_ids` (`backend/database.py` lines 244-254):
`SELECT * FROM comments WHERE id IN (...)`, in table order.
(The call is only issued with a non-empty id list in the app.) -/
def get_comments_by_ids (db : List CommentRow) (commentIds : List Nat) : List CommentRow :=
  db.filter (fun c => commentIds.contains c.id)

/-- `update_comment_status` (`backend/database.py` lines 256-273): set
`status` and `updated_at` on every row whose `id` matches,
unconditionally. -/
def update_comment_status (db : List CommentRow) (commentId : Nat) (status : List Nat)
    (now : Nat) : List CommentRow :=
  db.map (fun c => if c.id == commentId then { c with status := status, updated_at := now } else c)

/-- `update_comment_response` (`backend/database.py` lines 275-294): set
`ai_response`, `status` and `updated_at` in one update on every row whose
`id` matches, unconditionally. -/
def update_comment_response (db : List CommentRow) (commentId : Nat)
    (newResponse status : List Nat) (now : Nat) : List CommentRow :=
  db.map (fun c =>
    if c.id == commentId then
      { c with ai_response := newResponse, status := status, updated_at := now }
    else c)

/-- The moderation request body (`app.py` lines 45-48). -/
structure ValidateComment where
  comment_id : Nat
  action : List Nat
  modified_response : Option (List Nat)

/-- Responses of the moderation endpoint: the 404 branch, or the success
acknowledgement `{status, comment_id, action}`. -/
inductive ModerateResult
  | notFound
  | success (commentId : Nat) (action : List Nat)

/-- Python truthiness of `validation.modified_response`: `None` and the
empty string are falsy. -/
def truthyOpt (o : Option (List Nat)) : Bool :=
  match o with
  | none => false
  | some s => !s.isEmpty

/-- `validate_comment` endpoint (`app.py` lines 172-201): 404 when the
comment does not exist; otherwise apply the status update selected by
`action` — `"validate"`, `"reject"`, or `"modify"` with a truthy
`modified_response` — and answer the success acknowledgement.  When no
branch matches, no update is issued and the acknowledgement is still
returned.  Returns the response together with the resulting table. -/
def validate_comment (db : List CommentRow) (v : ValidateComment) (now : Nat) :
    ModerateResult × List CommentRow :=
  match get_comment db v.comment_id with
  | none => (.notFound, db)
  | some _ =>
    if v.action = strN "validate" then
      (.success v.comment_id v.action, update_comment_status db v.comment_id (strN "validated") now)
    else if v.action = strN "reject" then
      (.success v.comment_id v.action, update_comment_status db v.comment_id (strN "rejected") now)
    else if v.action = strN "modify" ∧ truthyOpt v.modified_response = true then
      (.success v.comment_id v.action,
        update_comment_response db v.comment_id (v.modified_response.getD []) (strN "validated") now)
    else
      (.success v.comment_id v.action, db)

/-- Responses of the publish endpoint: the 400/500 rejection raised when
some fetched comment is not `validated` (carrying the invalid count), or
the `"processing"` acknowledgement. -/
inductive PublishResponse
  | rejected (invalidCount : Nat)
  | accepted (commentCount : Nat)
deriving DecidableEq

/-- `invalid_comments` of the `publish_comments` endpoint (`app.py` line
212): the fetched comments whose status differs from `"validated"`. -/
def invalidComments (db : List CommentRow) (commentIds : List Nat) : List CommentRow :=
  (get_comments_by_ids db commentIds).filter (fun c => !(c.status = strN "validated" : Bool))

/-- The synchronous part of the `publish_comments` endpoint (`app.py`
lines 203-233): fetch the named comments, and reject the whole request
when any fetched comment's status differs from `"validated"`; otherwise
acknowledge and schedule the background task. -/
def publish_comments (db : List CommentRow) (commentIds : List Nat) : PublishResponse :=
  if (invalidComments db commentIds).isEmpty then .accepted commentIds.length
  else .rejected (invalidComments db commentIds).length

/-- `process_comment_publishing` (`app.py` lines 235-271): re-fetch the
named comments and, for each, attempt the reply via the scraper (the
per-comment outcome given by the oracle `pubOk`), recording `published`
on success and `failed` on failure. -/
def process_comment_publishing (db : List CommentRow) (commentIds : List Nat)
    (pubOk : Nat → Bool) (now : Nat) : List CommentRow :=
  (get_comments_by_ids db commentIds).foldl
    (fun acc c =>
      if pubOk c.id then update_comment_status acc c.id (strN "published") now
      else update_comment_status acc c.id (strN "failed") now)
    db

/-- A whole publish request: the synchronous check, followed — only when
accepted — by the background publication task. -/
def handle_publish_request (db : List CommentRow) (commentIds : List Nat)
    (pubOk : Nat → Bool) (now : Nat) : PublishResponse × List CommentRow :=
  match publish_comments db commentIds with
  | .rejected n => (.rejected n, db)
  | .accepted k => (.accepted k, process_comment_publishing db commentIds pubOk now)

/-! ## Helper lemmas -/

theorem collectReplies_length (l : List PyVal) (rs : List PyVal)
    (h : collectReplies l = .ok rs) : rs.length = l.length := by
  induction l generalizing rs with
  | nil =>
    simp only [collectReplies] at h
    cases h
    rfl
  | cons item rest ih =>
    simp only [collectReplies] at h
    cases hi : itemReply item with
    | error e => rw [hi] at h; cases h
    | ok r =>
      rw [hi] at h
      cases hr : collectReplies rest with
      | error e => rw [hr] at h; cases h
      | ok rs2 =>
        rw [hr] at h
        cases h
        simp [ih rs2 hr]

theorem isSpaceN_lowerN (n : Nat) : isSpaceN (lowerN n) = isSpaceN n := by
  unfold lowerN isSpaceN
  split
  · simp only [decide_eq_decide]
    omega
  · rfl

theorem dropWhile_lowerStr (s : List Nat) :
    (lowerStr s).dropWhile isSpaceN = lowerStr (s.dropWhile isSpaceN) := by
  induction s with
  | nil => rfl
  | cons a t ih =>
    simp only [lowerStr, List.map_cons, List.dropWhile_cons, isSpaceN_lowerN]
    cases h : isSpaceN a with
    | true => simpa [lowerStr] using ih
    | false => simp [lowerStr]

theorem lowerStr_trimN (s : List Nat) : trimN (lowerStr s) = lowerStr (trimN s) := by
  unfold trimN
  rw [dropWhile_lowerStr]
  rw [show (lowerStr (s.dropWhile isSpaceN)).reverse = lowerStr (s.dropWhile isSpaceN).reverse by
    simp [lowerStr]]
  rw [dropWhile_lowerStr]
  simp [lowerStr]

theorem dropWhile_head_false {p : Nat → Bool} {l : List Nat} {a : Nat} {t : List Nat}
    (h : l.dropWhile p = a :: t) : p a = false := by
  induction l generalizing t with
  | nil => simp [List.dropWhile] at h
  | cons b r ih =>
    rw [List.dropWhile_cons] at h
    by_cases hb : p b = true
    · rw [hb] at h
      simp only [if_true] at h
      exact ih h
    · rw [eq_false_of_ne_true hb] at h
      simp only [Bool.false_eq_true, if_false] at h
      cases h
      exact eq_false_of_ne_true hb

theorem dropWhile_append_eq (p : Nat → Bool) (l : List Nat) :
    ∃ t, t ++ l.dropWhile p = l := by
  induction l with
  | nil => exact ⟨[], rfl⟩
  | cons a r ih =>
    by_cases h : p a = true
    · obtain ⟨t, ht⟩ := ih
      refine ⟨a :: t, ?_⟩
      simp [List.dropWhile_cons, h, ht]
    · refine ⟨[], ?_⟩
      simp [List.dropWhile_cons, eq_false_of_ne_true h]

theorem dropWhile_self (p : Nat → Bool) (l : List Nat) :
    (l.dropWhile p).dropWhile p = l.dropWhile p := by
  cases hl : l.dropWhile p with
  | nil => rfl
  | cons a t =>
    have ha := dropWhile_head_false hl
    simp [List.dropWhile_cons, ha]

theorem dropWhile_nil_forall {p : Nat → Bool} {l : List Nat}
    (h : l.dropWhile p = []) : ∀ x ∈ l, p x = true := by
  induction l with
  | nil => intro x hx; cases hx
  | cons a r ih =>
    rw [List.dropWhile_cons] at h
    by_cases ha : p a = true
    · rw [ha] at h
      simp only [if_true] at h
      intro x hx
      rcases List.mem_cons.mp hx with rfl | hx2
      · exact ha
      · exact ih h x hx2
    · rw [eq_false_of_ne_true ha] at h
      simp at h

theorem trimN_cons_head {c : Nat} (hc : isSpaceN c = false) (xs : List Nat) :
    ∃ t, trimN (c :: xs) = c :: t := by
  have hstep : (c :: xs).dropWhile isSpaceN = c :: xs := by
    simp [List.dropWhile_cons, hc]
  obtain ⟨pre, hpre⟩ := dropWhile_append_eq isSpaceN (c :: xs).reverse
  have hdne : (c :: xs).reverse.dropWhile isSpaceN ≠ [] := by
    intro h0
    have hall := dropWhile_nil_forall h0 c (by simp)
    rw [hc] at hall
    cases hall
  have hrev : ((c :: xs).reverse.dropWhile isSpaceN).reverse ++ pre.reverse = c :: xs := by
    have h2 := congrArg List.reverse hpre
    simpa using h2
  cases hdr : ((c :: xs).reverse.dropWhile isSpaceN).reverse with
  | nil =>
    exfalso
    apply hdne
    have h3 := congrArg List.reverse hdr
    simpa using h3
  | cons y ys =>
    rw [hdr] at hrev
    simp only [List.cons_append] at hrev
    have hy : y = c := by
      injection hrev with h1 h2
    refine ⟨ys, ?_⟩
    unfold trimN
    rw [hstep, hdr, hy]

theorem trimN_idem (s : List Nat) : trimN (trimN s) = trimN s := by
  have htrim : trimN s = ((s.dropWhile isSpaceN).reverse.dropWhile isSpaceN).reverse := rfl
  obtain ⟨pre, hpre⟩ := dropWhile_append_eq isSpaceN (s.dropWhile isSpaceN).reverse
  have step1 : (trimN s).dropWhile isSpaceN = trimN s := by
    cases hdr : trimN s with
    | nil => rfl
    | cons a t =>
      have hrev : trimN s ++ pre.reverse = s.dropWhile isSpaceN := by
        rw [htrim]
        have h2 := congrArg List.reverse hpre
        simpa using h2
      rw [hdr] at hrev
      simp only [List.cons_append] at hrev
      have ha : isSpaceN a = false := dropWhile_head_false hrev.symm
      simp [List.dropWhile_cons, ha]
  have step2 : (trimN s).reverse.dropWhile isSpaceN = (trimN s).reverse := by
    rw [htrim]
    simp only [List.reverse_reverse]
    exact dropWhile_self isSpaceN (s.dropWhile isSpaceN).reverse
  calc trimN (trimN s)
      = (((trimN s).dropWhile isSpaceN).reverse.dropWhile isSpaceN).reverse := rfl
    _ = ((trimN s).reverse.dropWhile isSpaceN).reverse := by rw [step1]
    _ = (trimN s).reverse.reverse := by rw [step2]
    _ = trimN s := List.reverse_reverse _

theorem resolveLinkUsername_shape (l : Option UsernameLink) :
    (∃ r, resolveLinkUsername l = 64 :: r) ∨ (∃ v, resolveLinkUsername l = trimN v) := by
  cases l with
  | none => exact Or.inr ⟨[], rfl⟩
  | some link =>
    cases hh : link.href with
    | none =>
      right
      refine ⟨link.text, ?_⟩
      simp [resolveLinkUsername, hh]
    | some href =>
      by_cases hc : href ≠ [] ∧ containsSeq slashAt href = true
      · left
        refine ⟨(splitLastPiece slashAt href).takeWhile (fun c => c != 63), ?_⟩
        simp [resolveLinkUsername, hh, hc, hrefUsername]
      · right
        refine ⟨link.text, ?_⟩
        simp [resolveLinkUsername, hh, hc]

theorem resolveUsername_shape (b : CommentBlock) :
    (∃ r, resolveUsername b = 64 :: r) ∨ (∃ v, resolveUsername b = trimN v) := by
  cases hd : b.displayNameText with
  | none =>
    have : resolveUsername b = resolveLinkUsername b.usernameLink := by
      simp [resolveUsername, hd]
    rw [this]
    exact resolveLinkUsername_shape b.usernameLink
  | some d =>
    by_cases hne : trimN d ≠ []
    · right
      refine ⟨d, ?_⟩
      simp [resolveUsername, hd, hne]
    · have : resolveUsername b = resolveLinkUsername b.usernameLink := by
        simp [resolveUsername, hd, hne]
      rw [this]
      exact resolveLinkUsername_shape b.usernameLink

theorem trim_lower_eq_excl_iff (u : List Nat)
    (hshape : (∃ r, u = 64 :: r) ∨ (∃ v, u = trimN v)) :
    (trimN (lowerStr u) = lowerStr excludedUsername ↔
      lowerStr u = lowerStr excludedUsername) := by
  have hconc : lowerStr excludedUsername = 115 :: strN "oeur bonplan 🎀" := by decide
  rcases hshape with ⟨r, rfl⟩ | ⟨v, rfl⟩
  · have h64 : lowerN 64 = 64 := by decide
    have hmap : lowerStr (64 :: r) = 64 :: lowerStr r := by
      simp [lowerStr, h64]
    obtain ⟨t, ht⟩ := trimN_cons_head (c := 64) (by decide) (lowerStr r)
    rw [hmap, ht, hconc]
    constructor
    · intro h
      exfalso
      injection h with h1 h2
      omega
    · intro h
      exfalso
      injection h with h1 h2
      omega
  · have key : trimN (lowerStr (trimN v)) = lowerStr (trimN v) := by
      rw [← lowerStr_trimN, trimN_idem, lowerStr_trimN]
    rw [key]

theorem get_comment_update_status (db : List CommentRow) (cid : Nat) (st : List Nat)
    (now : Nat) :
    get_comment (update_comment_status db cid st now) cid =
      (get_comment db cid).map (fun c => { c with status := st, updated_at := now }) := by
  induction db with
  | nil => rfl
  | cons d t ih =>
    by_cases h : (d.id == cid) = true
    · have hid : (({ d with status := st, updated_at := now } : CommentRow).id == cid) = true := h
      simp only [update_comment_status, List.map_cons, h, if_true, get_comment, hid]
      rfl
    · simp only [update_comment_status, List.map_cons, h, if_false, get_comment,
        Bool.false_eq_true]
      exact ih

theorem get_comment_update_response (db : List CommentRow) (cid : Nat)
    (resp st : List Nat) (now : Nat) :
    get_comment (update_comment_response db cid resp st now) cid =
      (get_comment db cid).map
        (fun c => { c with ai_response := resp, status := st, updated_at := now }) := by
  induction db with
  | nil => rfl
  | cons d t ih =>
    by_cases h : (d.id == cid) = true
    · have hid :
        (({ d with ai_response := resp, status := st, updated_at := now } : CommentRow).id
          == cid) = true := h
      simp only [update_comment_response, List.map_cons, h, if_true, get_comment, hid]
      rfl
    · simp only [update_comment_response, List.map_cons, h, if_false, get_comment,
        Bool.false_eq_true]
      exact ih

/-! ## Claim theorems -/

/-- C9: for the empty input batch, `generate_batch_responses` returns the
empty list immediately — the guard at `ai_handler.py` lines 48-50 runs
before the `try` block, so no completion call is issued (the call flag is
`false`) and no error is raised (the function returns normally). -/
theorem empty_batch_no_call (env : Env) :
    generate_batch_responses env [] = ([], false) := rfl

/-- C3: when the batch attempt fails for any reason other than a JSON
decode failure (for instance the completion request itself raising), the
batch output is a list of exactly one entry per input comment, each equal
to the fixed placeholder reply string. -/
theorem api_failure_placeholder_batch (env : Env) (commentsData : List CommentInput)
    (e : PyErr) (hne : commentsData ≠ [])
    (hatt : batchAttempt env = .error e) (hkind : e ≠ PyErr.jsonDecode) :
    (generate_batch_responses env commentsData).1 =
        commentsData.map (fun _ => PyVal.str merciStr) ∧
      (generate_batch_responses env commentsData).1.length = commentsData.length := by
  unfold generate_batch_responses
  rw [if_neg hne, hatt]
  exact ⟨rfl, by simp⟩

/-- Witness for C3: a one-element batch with a raising completion call
yields exactly one placeholder entry. -/
theorem api_failure_placeholder_batch_witness :
    (generate_batch_responses ⟨.raises, fun _ => .ok .other⟩
        [⟨strN "fatima", strN "salut"⟩]).1 =
        ([⟨strN "fatima", strN "salut"⟩] : List CommentInput).map
          (fun _ => PyVal.str merciStr) ∧
      (generate_batch_responses ⟨.raises, fun _ => .ok .other⟩
        [⟨strN "fatima", strN "salut"⟩]).1.length =
        ([⟨strN "fatima", strN "salut"⟩] : List CommentInput).length :=
  api_failure_placeholder_batch ⟨.raises, fun _ => .ok .other⟩
    [⟨strN "fatima", strN "salut"⟩] PyErr.apiFailure
    (by simp) rfl (by decide)

/-- C1 counterexample: a concrete batch whose completion call succeeds
but whose returned text fails JSON decoding.  The attempt fails with the
decode error, yet `generate_batch_responses` returns the placeholder
reply for the batch — the `except Exception` handler at `ai_handler.py`
line 91 catches the re-raised `JSONDecodeError`, so the batch degrades to
placeholders instead of propagating a hard failure. -/
theorem decode_failure_counterexample :
    batchAttempt ⟨.returns (strN "not json"), fun _ => .error ()⟩ =
        .error PyErr.jsonDecode ∧
      generate_batch_responses ⟨.returns (strN "not json"), fun _ => .error ()⟩
          [⟨strN "amina", strN "salam"⟩] =
        ([PyVal.str merciStr], true) :=
  ⟨rfl, rfl⟩

/-- C1 (amended): on a non-empty batch whose attempt fails with a JSON
decode error, `generate_batch_responses` degrades to exactly one fixed
placeholder reply per input — the decode error raised inside
`_parse_json_response` is caught by the batch-level `except Exception`
handler like every other error. -/
theorem decode_failure_degrades (env : Env) (commentsData : List CommentInput)
    (hne : commentsData ≠ [])
    (hatt : batchAttempt env = .error PyErr.jsonDecode) :
    (generate_batch_responses env commentsData).1 =
        commentsData.map (fun _ => PyVal.str merciStr) ∧
      (generate_batch_responses env commentsData).1.length = commentsData.length := by
  unfold generate_batch_responses
  rw [if_neg hne, hatt]
  exact ⟨rfl, by simp⟩

/-- Witness for the amended C1 at a concrete decode-failure input. -/
theorem decode_failure_degrades_witness :
    (generate_batch_responses ⟨.returns (strN "oops"), fun _ => .error ()⟩
        [⟨strN "yasmina", strN "coucou"⟩]).1 =
        ([⟨strN "yasmina", strN "coucou"⟩] : List CommentInput).map
          (fun _ => PyVal.str merciStr) ∧
      (generate_batch_responses ⟨.returns (strN "oops"), fun _ => .error ()⟩
        [⟨strN "yasmina", strN "coucou"⟩]).1.length =
        ([⟨strN "yasmina", strN "coucou"⟩] : List CommentInput).length :=
  decode_failure_degrades ⟨.returns (strN "oops"), fun _ => .error ()⟩
    [⟨strN "yasmina", strN "coucou"⟩] (by simp) rfl

/-- C4: `truncate_response` at the 114 ceiling is idempotent, returns any
text of length at most 114 unchanged, and maps any longer text to a
result of exactly 114 codepoints ending in the `"..."` marker. -/
theorem truncate_response_spec (s : List Nat) :
    truncate_response (truncate_response s 114) 114 = truncate_response s 114 ∧
      (s.length ≤ 114 → truncate_response s 114 = s) ∧
      (114 < s.length →
        (truncate_response s 114).length = 114 ∧
          strN "..." <:+ truncate_response s 114) := by
  have hle : ∀ u : List Nat, u.length ≤ 114 → truncate_response u 114 = u := by
    intro u hu
    unfold truncate_response
    rw [if_pos hu]
  by_cases h : s.length ≤ 114
  · refine ⟨?_, fun _ => hle s h, fun hgt => absurd h (by omega)⟩
    rw [hle s h, hle s h]
  · have hform : truncate_response s 114 = s.take (114 - 3) ++ strN "..." := by
      unfold truncate_response
      rw [if_neg h]
    have hlen : (truncate_response s 114).length = 114 := by
      rw [hform]
      simp only [List.length_append, List.length_take]
      have h3 : (strN "...").length = 3 := by decide
      rw [h3]
      omega
    refine ⟨?_, fun hle2 => absurd hle2 h, fun _ => ⟨hlen, ?_⟩⟩
    · exact hle _ (le_of_eq hlen)
    · rw [hform]
      exact List.suffix_append _ _

/-- Witness for C4: a 120-codepoint input truncates to length 114, and a
short input is returned unchanged. -/
theorem truncate_response_spec_witness :
    (truncate_response (List.replicate 120 97) 114).length = 114 ∧
      truncate_response (strN "Coucou") 114 = strN "Coucou" :=
  ⟨((truncate_response_spec (List.replicate 120 97)).2.2 (by decide)).1,
    (truncate_response_spec (strN "Coucou")).2.1 (by decide)⟩

/-- C5: for any comment block whose text resolves, the extraction step
drops the block exactly when its resolved identity equals the configured
operator identity under case-insensitive comparison.  In particular an
identity differing only in letter case is dropped, while one that merely
contains the excluded identity as a proper substring has a different
(longer) lowercasing and is kept. -/
theorem self_filter_exact_case_insensitive (b : CommentBlock) (t : List Nat)
    (ht : b.commentText = some t) :
    (extractItem b = none ↔
      lowerStr (resolveUsername b) = lowerStr excludedUsername) := by
  have hiff := trim_lower_eq_excl_iff (resolveUsername b) (resolveUsername_shape b)
  by_cases hdrop :
      trimN (lowerStr (resolveUsername b)) = lowerStr excludedUsername
  · have hnone : extractItem b = none := by
      simp only [extractItem, ht]
      rw [if_pos hdrop]
    rw [hnone]
    exact ⟨fun _ => hiff.mp hdrop, fun _ => rfl⟩
  · have hsome : extractItem b = some ⟨resolveUsername b, trimN t⟩ := by
      simp only [extractItem, ht]
      rw [if_neg hdrop]
    rw [hsome]
    constructor
    · intro hco
      simp at hco
    · intro heq
      exact absurd (hiff.mpr heq) hdrop

/-- Witness for C5: a block whose display name is the excluded identity
in upper case is dropped by extraction. -/
theorem self_filter_exact_case_insensitive_witness :
    extractItem ⟨none, some (strN "SOEUR BONPLAN 🎀"), some (strN "hello")⟩ = none :=
  (self_filter_exact_case_insensitive
    ⟨none, some (strN "SOEUR BONPLAN 🎀"), some (strN "hello")⟩
    (strN "hello") rfl).mpr (by decide)

/-- C8: during reply submission with the target comment and reply input
located, the agent clicks the second enabled submit control whenever at
least two exist, and the publish attempt for the comment fails when fewer
than two enabled submit controls exist. -/
theorem submit_clicks_second_button (p : ReplyPage)
    (ht : p.targetFound = true) (hi : p.replyInputFound = true) :
    (∀ h : 2 ≤ p.publishButtons.length,
        reply_to_comment p = .ok (p.publishButtons.get ⟨1, by omega⟩)) ∧
      (p.publishButtons.length < 2 →
        reply_to_comment p = .error .submitMissing) := by
  constructor
  · intro h
    unfold reply_to_comment
    rw [if_neg (by simp [ht]), if_neg (by simp [hi]), dif_pos h]
  · intro hlt
    unfold reply_to_comment
    rw [if_neg (by simp [ht]), if_neg (by simp [hi]), dif_neg (by omega)]

/-- Witness for C8: with two enabled submit controls the second is
clicked; with a single one the attempt fails. -/
theorem submit_clicks_second_button_witness :
    reply_to_comment ⟨true, true, [10, 20]⟩ = .ok 20 ∧
      reply_to_comment ⟨true, true, [10]⟩ = .error .submitMissing :=
  ⟨(submit_clicks_second_button ⟨true, true, [10, 20]⟩ rfl rfl).1 (by decide),
    (submit_clicks_second_button ⟨true, true, [10]⟩ rfl rfl).2 (by decide)⟩

/-- C2: for any publish request naming a set of comment ids, if some
fetched comment's current status is not `"validated"`, the request is
rejected in the synchronous check before the background task is
scheduled, and the stored table is unchanged — zero status changes occur
from that request. -/
theorem publish_rejects_unvalidated (db : List CommentRow) (commentIds : List Nat)
    (pubOk : Nat → Bool) (now : Nat) (c : CommentRow)
    (hc : c ∈ get_comments_by_ids db commentIds)
    (hs : c.status ≠ strN "validated") :
    (∃ n, (handle_publish_request db commentIds pubOk now).1 =
        PublishResponse.rejected n) ∧
      (handle_publish_request db commentIds pubOk now).2 = db := by
  have hinv : c ∈ invalidComments db commentIds := by
    unfold invalidComments
    apply List.mem_filter.mpr
    exact ⟨hc, by simp [hs]⟩
  have hne : ¬ (invalidComments db commentIds).isEmpty = true := by
    intro h0
    rw [List.isEmpty_iff] at h0
    rw [h0] at hinv
    cases hinv
  have hpub : publish_comments db commentIds =
      .rejected (invalidComments db commentIds).length := by
    unfold publish_comments
    rw [if_neg hne]
  constructor
  · refine ⟨(invalidComments db commentIds).length, ?_⟩
    unfold handle_publish_request
    rw [hpub]
  · unfold handle_publish_request
    rw [hpub]

/-- Witness for C2: a single-row table whose comment is `pending` causes
the publish request naming it to be rejected with the table unchanged. -/
theorem publish_rejects_unvalidated_witness :
    (∃ n, (handle_publish_request
        [⟨1, strN "url", 1, strN "bob", strN "hi", strN "re", strN "pending", 0, 0⟩]
        [1] (fun _ => true) 7).1 = PublishResponse.rejected n) ∧
      (handle_publish_request
        [⟨1, strN "url", 1, strN "bob", strN "hi", strN "re", strN "pending", 0, 0⟩]
        [1] (fun _ => true) 7).2 =
        [⟨1, strN "url", 1, strN "bob", strN "hi", strN "re", strN "pending", 0, 0⟩] :=
  publish_rejects_unvalidated
    [⟨1, strN "url", 1, strN "bob", strN "hi", strN "re", strN "pending", 0, 0⟩]
    [1] (fun _ => true) 7
    ⟨1, strN "url", 1, strN "bob", strN "hi", strN "re", strN "pending", 0, 0⟩
    (by decide) (by decide)

/-- C7: the moderation operations overwrite a stored comment
unconditionally, whatever its current status (including the terminal
ones): `validate` sets status `validated`, `reject` sets `rejected`, and
`modify` with a non-empty text replaces the reply text and sets
`validated` in the same single update; each returns the success
acknowledgement instead of rejecting the operation. -/
theorem moderation_overwrites_unconditionally (db : List CommentRow) (cid : Nat)
    (c : CommentRow) (now : Nat) (txt : List Nat)
    (hc : get_comment db cid = some c) (htxt : txt ≠ []) :
    (validate_comment db ⟨cid, strN "validate", none⟩ now).1 =
        ModerateResult.success cid (strN "validate") ∧
      get_comment (validate_comment db ⟨cid, strN "validate", none⟩ now).2 cid =
        some { c with status := strN "validated", updated_at := now } ∧
      (validate_comment db ⟨cid, strN "reject", none⟩ now).1 =
        ModerateResult.success cid (strN "reject") ∧
      get_comment (validate_comment db ⟨cid, strN "reject", none⟩ now).2 cid =
        some { c with status := strN "rejected", updated_at := now } ∧
      (validate_comment db ⟨cid, strN "modify", some txt⟩ now).1 =
        ModerateResult.success cid (strN "modify") ∧
      get_comment (validate_comment db ⟨cid, strN "modify", some txt⟩ now).2 cid =
        some { c with ai_response := txt, status := strN "validated", updated_at := now } := by
  have hv : validate_comment db ⟨cid, strN "validate", none⟩ now =
      (ModerateResult.success cid (strN "validate"),
        update_comment_status db cid (strN "validated") now) := by
    unfold validate_comment
    rw [hc, if_pos rfl]
  have hr : validate_comment db ⟨cid, strN "reject", none⟩ now =
      (ModerateResult.success cid (strN "reject"),
        update_comment_status db cid (strN "rejected") now) := by
    unfold validate_comment
    rw [hc, if_neg (show ¬ (strN "reject") = strN "validate" from by decide), if_pos rfl]
  have htruthy : truthyOpt (some txt) = true := by
    cases txt with
    | nil => exact absurd rfl htxt
    | cons a l => rfl
  have hm : validate_comment db ⟨cid, strN "modify", some txt⟩ now =
      (ModerateResult.success cid (strN "modify"),
        update_comment_response db cid txt (strN "validated") now) := by
    unfold validate_comment
    rw [hc, if_neg (show ¬ (strN "modify") = strN "validate" from by decide),
      if_neg (show ¬ (strN "modify") = strN "reject" from by decide),
      if_pos ⟨rfl, htruthy⟩]
    rfl
  refine ⟨by rw [hv], ?_, by rw [hr], ?_, by rw [hm], ?_⟩
  · rw [hv]
    rw [get_comment_update_status, hc]
    rfl
  · rw [hr]
    rw [get_comment_update_status, hc]
    rfl
  · rw [hm]
    rw [get_comment_update_response, hc]
    rfl

/-- Witness for C7: moderation on a comment already in the terminal
status `published` still overwrites it. -/
theorem moderation_overwrites_unconditionally_witness :
    (validate_comment
        [⟨1, strN "url", 1, strN "al", strN "hi", strN "old", strN "published", 0, 0⟩]
        ⟨1, strN "validate", none⟩ 9).1 =
        ModerateResult.success 1 (strN "validate") ∧
      get_comment (validate_comment
        [⟨1, strN "url", 1, strN "al", strN "hi", strN "old", strN "published", 0, 0⟩]
        ⟨1, strN "validate", none⟩ 9).2 1 =
        some ⟨1, strN "url", 1, strN "al", strN "hi", strN "old", strN "validated", 0, 9⟩ ∧
      (validate_comment
        [⟨1, strN "url", 1, strN "al", strN "hi", strN "old", strN "published", 0, 0⟩]
        ⟨1, strN "reject", none⟩ 9).1 =
        ModerateResult.success 1 (strN "reject") ∧
      get_comment (validate_comment
        [⟨1, strN "url", 1, strN "al", strN "hi", strN "old", strN "published", 0, 0⟩]
        ⟨1, strN "reject", none⟩ 9).2 1 =
        some ⟨1, strN "url", 1, strN "al", strN "hi", strN "old", strN "rejected", 0, 9⟩ ∧
      (validate_comment
        [⟨1, strN "url", 1, strN "al", strN "hi", strN "old", strN "published", 0, 0⟩]
        ⟨1, strN "modify", some (strN "new")⟩ 9).1 =
        ModerateResult.success 1 (strN "modify") ∧
      get_comment (validate_comment
        [⟨1, strN "url", 1, strN "al", strN "hi", strN "old", strN "published", 0, 0⟩]
        ⟨1, strN "modify", some (strN "new")⟩ 9).2 1 =
        some ⟨1, strN "url", 1, strN "al", strN "hi", strN "new", strN "validated", 0, 9⟩ :=
  moderation_overwrites_unconditionally
    [⟨1, strN "url", 1, strN "al", strN "hi", strN "old", strN "published", 0, 0⟩]
    1 ⟨1, strN "url", 1, strN "al", strN "hi", strN "old", strN "published", 0, 0⟩
    9 (strN "new") rfl (by decide)

/-- C10: a moderation request on an existing comment whose action is
`modify` without a modified text, or whose action is none of `validate`,
`reject`, `modify`, still answers the success acknowledgement and leaves
the stored table — every field of every comment — unchanged. -/
theorem moderation_noop_actions (db : List CommentRow) (cid : Nat) (act : List Nat)
    (mr : Option (List Nat)) (now : Nat) (c : CommentRow)
    (hc : get_comment db cid = some c)
    (hno : (act = strN "modify" ∧ mr = none) ∨
      (act ≠ strN "validate" ∧ act ≠ strN "reject" ∧ act ≠ strN "modify")) :
    validate_comment db ⟨cid, act, mr⟩ now =
      (ModerateResult.success cid act, db) := by
  unfold validate_comment
  rw [hc]
  rcases hno with ⟨ha, hm⟩ | ⟨h1, h2, h3⟩
  · subst ha
    subst hm
    rw [if_neg (show ¬ (strN "modify") = strN "validate" from by decide),
      if_neg (show ¬ (strN "modify") = strN "reject" from by decide),
      if_neg (fun hh => absurd (show truthyOpt none = true from hh.2) (by decide))]
  · rw [if_neg h1, if_neg h2, if_neg (fun hh => h3 hh.1)]

/-- Witness for C10: an unrecognised action on an existing `pending`
comment acknowledges success and changes nothing. -/
theorem moderation_noop_actions_witness :
    validate_comment
        [⟨1, strN "url", 1, strN "al", strN "hi", strN "re", strN "pending", 0, 0⟩]
        ⟨1, strN "publish", none⟩ 3 =
      (ModerateResult.success 1 (strN "publish"),
        [⟨1, strN "url", 1, strN "al", strN "hi", strN "re", strN "pending", 0, 0⟩]) :=
  moderation_noop_actions
    [⟨1, strN "url", 1, strN "al", strN "hi", strN "re", strN "pending", 0, 0⟩]
    1 (strN "publish") none 3
    ⟨1, strN "url", 1, strN "al", strN "hi", strN "re", strN "pending", 0, 0⟩
    rfl (Or.inr ⟨by decide, by decide, by decide⟩)

/-- C6: on a non-empty batch whose completion call succeeds and whose
cleaned text decodes to an object with a `responses` array of M items
whose replies all extract, `generate_batch_responses` returns exactly
those M replies in array order — regardless of the input count N, with no
padding when M < N and no truncation when M > N. -/
theorem batch_returns_parsed_count (env : Env) (commentsData : List CommentInput)
    (content : List Nat) (d : List (List Nat × PyVal)) (items rs : List PyVal)
    (hne : commentsData ≠ [])
    (hapi : env.api = .returns content)
    (hjson : env.jsonLoads (cleanFences (trimN content)) = .ok (.dict d))
    (hresp : lookupN d keyResponses = some (.list items))
    (hcollect : collectReplies items = .ok rs) :
    (generate_batch_responses env commentsData).1 = rs ∧
      rs.length = items.length := by
  have hparse : parse_json_response env.jsonLoads (trimN content) = .ok rs := by
    unfold parse_json_response
    rw [hjson]
    show extractReplies ((lookupN d keyResponses).getD (.list [])) = .ok rs
    rw [hresp]
    exact hcollect
  have hatt : batchAttempt env = .ok rs := by
    unfold batchAttempt
    rw [hapi]
    exact hparse
  refine ⟨?_, collectReplies_length items rs hcollect⟩
  unfold generate_batch_responses
  rw [if_neg hne, hatt]

/-- Witness for C6: a two-comment batch (N = 2) whose structured response
carries a single-item array (M = 1) returns exactly that one reply. -/
theorem batch_returns_parsed_count_witness :
    (generate_batch_responses
        ⟨.returns (strN "w"),
          fun _ => .ok (.dict [(keyResponses,
            .list [.dict [(keyChatgptResponse, .str (strN "Coucou toi"))]])])⟩
        [⟨strN "a", strN "p"⟩, ⟨strN "b", strN "q"⟩]).1 =
        [PyVal.str (strN "Coucou toi")] ∧
      ([PyVal.str (strN "Coucou toi")] : List PyVal).length =
        ([PyVal.dict [(keyChatgptResponse, PyVal.str (strN "Coucou toi"))]] :
          List PyVal).length :=
  batch_returns_parsed_count
    ⟨.returns (strN "w"),
      fun _ => .ok (.dict [(keyResponses,
        .list [.dict [(keyChatgptResponse, .str (strN "Coucou toi"))]])])⟩
    [⟨strN "a", strN "p"⟩, ⟨strN "b", strN "q"⟩]
    (strN "w")
    [(keyResponses, .list [.dict [(keyChatgptResponse, .str (strN "Coucou toi"))]])]
    [.dict [(keyChatgptResponse, .str (strN "Coucou toi"))]]
    [.str (strN "Coucou toi")]
    (by simp) rfl rfl rfl rfl
